import Mathlib

/-!
Shallow embedding of the memory allocator in src/malloc.c.

Memory is modelled explicitly: addresses are natural numbers, NULL pointers
are `none`, the block headers placed on the heap form a partial map from
header addresses to `Header` records, and raw payload bytes form a total map
from addresses to byte values.  The program break (`sbrk(0)`) is a field of
the state; a positive `sbrk` delta succeeds exactly when the new break stays
within `osLimit` (the model of how much address space the OS will grant),
and a negative delta always succeeds, matching the usual `sbrk` contract.
All four entry points run under the single `global_malloc_lock` in the C
source, so the sequential state-passing semantics below is exact for any
single-threaded execution and for any lock-serialized interleaving.

Loops in the C source (`get_free_block`'s scan and the walk-to-tail loop in
`free`) are modelled with explicit fuel; a result of `none` at the outer
level means the C code dereferenced NULL or failed to terminate within the
given fuel, while `some` carries the value and the post-state.
-/

namespace MallocModel

/-- `#define ALIGNMENT 8` from src/malloc.c. -/
def ALIGNMENT : Nat := 8

/-- Modulus of the 64-bit `size_t` arithmetic used by the C source. -/
def sizeTMod : Nat := 2 ^ 64

/-- `#define POOL_SIZE 1024 * 1024` from src/malloc.c. -/
def POOL_SIZE : Nat := 1024 * 1024

/-- `sizeof(header_t)` on an LP64 target: 8 (size_t) + 8 + 8 (pointers)
+ 4 (int) padded to 32 bytes. -/
def headerSize : Nat := 32

/-- `#define ALIGN(size) (((size) + (ALIGNMENT-1)) & ~(ALIGNMENT-1))` from
src/malloc.c, in 64-bit `size_t` arithmetic: `~(ALIGNMENT-1)` is the 64-bit
mask `2^64 - ALIGNMENT`. -/
def align (n : Nat) : Nat :=
  Nat.land ((n + (ALIGNMENT - 1)) % sizeTMod) (sizeTMod - ALIGNMENT)

/-- `struct Header` from src/malloc.c: payload size, intrusive `next`/`prev`
links (optional addresses, `none` = NULL) and the free flag. -/
structure Header where
  size : Nat
  next : Option Nat
  prev : Option Nat
  is_free : Bool
deriving DecidableEq

/-- `memory_pool_t` from src/malloc.c: list head and tail plus the two
bookkeeping counters. -/
structure MemoryPool where
  head : Option Nat
  tail : Option Nat
  allocated_memory : Nat
  free_memory : Nat
deriving DecidableEq

/-- The complete mutable state of the allocator: `global_pool`, the headers
placed on the heap, the raw bytes of memory, `pool_start`, the current
program break, and the model of how far the OS will let the break grow. -/
structure AllocState where
  pool : MemoryPool
  heap : Nat → Option Header
  mem : Nat → Nat
  pool_start : Option Nat
  brk : Nat
  osLimit : Nat

/-- Read the header stored at address `a` (a C pointer dereference; reading
where no header was placed is undefined behavior in C and yields a default
record here). -/
def getHeader (s : AllocState) (a : Nat) : Header :=
  (s.heap a).getD { size := 0, next := none, prev := none, is_free := false }

/-- Write the header at address `a`. -/
def setHeader (s : AllocState) (a : Nat) (h : Header) : AllocState :=
  { s with heap := fun x => if x = a then some h else s.heap x }

/-- `memset(p, v, n)` from libc as used by `calloc`: set bytes
`[p, p + n)` to `v`. -/
def memset (s : AllocState) (p : Nat) (n : Nat) (v : Nat) : AllocState :=
  { s with mem := fun a => if p ≤ a ∧ a < p + n then v else s.mem a }

/-- `memcpy(dst, src, n)` from libc as used by `realloc`: copy bytes
`[src, src + n)` to `[dst, dst + n)`. -/
def memcpy (s : AllocState) (dst : Nat) (src : Nat) (n : Nat) : AllocState :=
  { s with mem := fun a => if dst ≤ a ∧ a < dst + n then s.mem (src + (a - dst)) else s.mem a }

/-- `add_to_free_list` from src/malloc.c (lines 30-41), one memory access at
a time so that aliasing between `block` and `global_pool.head` behaves
exactly as in C. -/
def add_to_free_list (s : AllocState) (b : Nat) : AllocState :=
  let s1 := setHeader s b { getHeader s b with is_free := true }
  let s2 := setHeader s1 b { getHeader s1 b with next := s1.pool.head }
  let s3 :=
    match s2.pool.head with
    | some hd => setHeader s2 hd { getHeader s2 hd with prev := some b }
    | none => s2
  let s4 := { s3 with pool := { s3.pool with head := some b } }
  let s5 :=
    match s4.pool.tail with
    | none => { s4 with pool := { s4.pool with tail := s4.pool.head } }
    | some _ => s4
  { s5 with pool := { s5.pool with free_memory := s5.pool.free_memory + (getHeader s5 b).size } }

/-- `remove_from_free_list` from src/malloc.c (lines 43-55), again one
memory access at a time. -/
def remove_from_free_list (s : AllocState) (b : Nat) : AllocState :=
  let s1 :=
    match (getHeader s b).prev with
    | some pv => setHeader s pv { getHeader s pv with next := (getHeader s b).next }
    | none => { s with pool := { s.pool with head := (getHeader s b).next } }
  let s2 :=
    match (getHeader s1 b).next with
    | some nx => setHeader s1 nx { getHeader s1 nx with prev := (getHeader s1 b).prev }
    | none => { s1 with pool := { s1.pool with tail := (getHeader s1 b).prev } }
  { s2 with pool := { s2.pool with free_memory := s2.pool.free_memory - (getHeader s2 b).size } }

/-- The `while (curr)` scan of `get_free_block` (src/malloc.c lines 57-67),
with explicit fuel.  `none` = the loop did not finish within `fuel` steps;
`some (r, s)` = the loop returned `r` leaving state `s`. -/
def gfbLoop (s : AllocState) (size : Nat) : Option Nat → Nat → Option (Option Nat × AllocState)
  | _, 0 => none
  | none, _ + 1 => some (none, s)
  | some c, fuel + 1 =>
    if (getHeader s c).is_free ∧ size ≤ (getHeader s c).size then
      some (some c, remove_from_free_list s c)
    else
      gfbLoop s size (getHeader s c).next fuel

/-- `get_free_block` from src/malloc.c (lines 57-67). -/
def get_free_block (fuel : Nat) (s : AllocState) (size : Nat) : Option (Option Nat × AllocState) :=
  gfbLoop s size s.pool.head fuel

/-- `malloc` from src/malloc.c (lines 69-116).  Returns `none` when the
free-list scan diverges, otherwise `some (payload?, post-state)` where the
payload pointer is `none` exactly when the C function returns NULL. -/
def malloc (fuel : Nat) (s : AllocState) (size : Nat) : Option (Option Nat × AllocState) :=
  if size = 0 then
    some (none, s)
  else
    let size := align size
    match get_free_block fuel s size with
    | none => none
    | some (some hAddr, s1) =>
      let s2 := setHeader s1 hAddr { getHeader s1 hAddr with is_free := false }
      some (some (hAddr + headerSize), s2)
    | some (none, s1) =>
      let total_size := (size + headerSize) % sizeTMod
      match s1.pool_start with
      | none => some (none, s1)
      | some ps =>
        if POOL_SIZE < s1.brk - ps + total_size then
          some (none, s1)
        else if s1.osLimit < s1.brk + total_size then
          some (none, s1)
        else
          let hAddr := s1.brk
          let s2 := { s1 with brk := s1.brk + total_size }
          let s3 := setHeader s2 hAddr { size := size, next := none, prev := none, is_free := false }
          let s4 :=
            match s3.pool.tail with
            | some t =>
              let sa := setHeader s3 t { getHeader s3 t with next := some hAddr }
              let sb := setHeader sa hAddr { getHeader sa hAddr with prev := some t }
              { sb with pool := { sb.pool with tail := some hAddr } }
            | none =>
              { s3 with pool := { s3.pool with head := some hAddr, tail := some hAddr } }
          let s5 := { s4 with pool := { s4.pool with allocated_memory := s4.pool.allocated_memory + size } }
          some (some (hAddr + headerSize), s5)

/-- The `while (tmp->next != global_pool.tail)` walk in `free`
(src/malloc.c lines 157-160), with explicit fuel.  Stepping through a NULL
`next` pointer is the NULL dereference the C code would perform, modelled
as `none`. -/
def freeWalk (s : AllocState) : Nat → Nat → Option Nat
  | _, 0 => none
  | tmp, fuel + 1 =>
    if (getHeader s tmp).next = s.pool.tail then some tmp
    else
      match (getHeader s tmp).next with
      | some nxt => freeWalk s nxt fuel
      | none => none

/-- `free` from src/malloc.c (lines 142-170).  `none` = the walk-to-tail
loop dereferenced NULL or ran out of fuel. -/
def free (fuel : Nat) (s : AllocState) (block : Option Nat) : Option AllocState :=
  match block with
  | none => some s
  | some p =>
    let h := p - headerSize
    if p + (getHeader s h).size = s.brk then
      if s.pool.head = s.pool.tail then
        let s1 := { s with pool := { s.pool with head := none, tail := none } }
        some { s1 with brk := s1.brk - (headerSize + (getHeader s1 h).size) }
      else
        match s.pool.head with
        | none => none
        | some hd =>
          match freeWalk s hd fuel with
          | none => none
          | some tmp =>
            let s1 := setHeader s tmp { getHeader s tmp with next := none }
            let s2 := { s1 with pool := { s1.pool with tail := some tmp } }
            some { s2 with brk := s2.brk - (headerSize + (getHeader s2 h).size) }
    else
      some (add_to_free_list s h)

/-- `realloc` from src/malloc.c (lines 118-140). -/
def realloc (fuel : Nat) (s : AllocState) (block : Option Nat) (size : Nat) :
    Option (Option Nat × AllocState) :=
  match block with
  | none => malloc fuel s size
  | some p =>
    if size = 0 then
      (free fuel s (some p)).map (fun s1 => (none, s1))
    else if size ≤ (getHeader s (p - headerSize)).size then
      some (some p, s)
    else
      match malloc fuel s size with
      | none => none
      | some (none, s1) => some (none, s1)
      | some (some ret, s1) =>
        let s2 := memcpy s1 ret p (getHeader s1 (p - headerSize)).size
        match free fuel s2 (some p) with
        | none => none
        | some s3 => some (some ret, s3)

/-- `calloc` from src/malloc.c (lines 172-190), with the `num * nsize`
product taken in 64-bit `size_t` arithmetic. -/
def calloc (fuel : Nat) (s : AllocState) (num : Nat) (nsize : Nat) :
    Option (Option Nat × AllocState) :=
  if num = 0 ∨ nsize = 0 then
    some (none, s)
  else
    let size := (num * nsize) % sizeTMod
    if nsize ≠ size / num then
      some (none, s)
    else
      match malloc fuel s size with
      | none => none
      | some (none, s1) => some (none, s1)
      | some (some block, s1) => some (some block, memset s1 block size 0)

/-- `initialize_memory_pool` from src/malloc.c (lines 206-215); the
function name is shortened here.  `sbrk(POOL_SIZE)` succeeds exactly when
the grown break stays within `osLimit`; on failure `pool_start` stays
NULL. -/
def init_memory_pool (s : AllocState) : AllocState :=
  match s.pool_start with
  | some _ => s
  | none =>
    if s.osLimit < s.brk + POOL_SIZE then s
    else { s with pool_start := some s.brk, brk := s.brk + POOL_SIZE }

/-- Decidable check that the list `l` of header addresses is exactly the
well-formed doubly-linked chain claimed by the spec: starting from the pool
head, each node's `prev` points back to its predecessor (`none` for the
first), consecutive nodes are linked by `next`, the last node's `next` is
`none`, and the pool tail is the last node.  `pr` is the expected `prev` of
the current node and `cur` the current link being followed. -/
def chainOkB (s : AllocState) : Option Nat → Option Nat → List Nat → Bool
  | pr, none, [] => s.pool.tail == pr
  | _, some _, [] => false
  | _, none, _ :: _ => false
  | pr, some c, a :: rest =>
    c == a && (getHeader s a).prev == pr && chainOkB s (some a) (getHeader s a).next rest

/-- The free-list shape invariant from the spec, for a given enumeration
`l` of the chain's nodes. -/
def isChain (s : AllocState) (l : List Nat) : Bool :=
  chainOkB s none s.pool.head l

/-! Concrete states used to evaluate the code on explicit inputs. -/

/-- A fresh process state: empty pool, no headers, `pool_start` NULL, break
at 4096, OS willing to grow the break up to 10^9. -/
def s0 : AllocState :=
  { pool := { head := none, tail := none, allocated_memory := 0, free_memory := 0 },
    heap := fun _ => none, mem := fun _ => 0,
    pool_start := none, brk := 4096, osLimit := 10 ^ 9 }

/-- The state right after `initialize_memory_pool` runs on `s0`: the break
was grown by `POOL_SIZE` and `pool_start` records the old break. -/
def sInit : AllocState := init_memory_pool s0

/-- A state with one live (non-free) block: header at 100, payload size 8.
`pool_start = 0` and `brk = 1000`, so malloc's pool-cap check passes and the
grow path of the code can be exercised. -/
def sC2 : AllocState :=
  { pool := { head := some 100, tail := some 100, allocated_memory := 8, free_memory := 0 },
    heap := fun a =>
      if a = 100 then some { size := 8, next := none, prev := none, is_free := false } else none,
    mem := fun _ => 0, pool_start := some 0, brk := 1000, osLimit := 10 ^ 6 }

/-- A state with two live blocks, headers at 100 and 200, each of payload
size 8, doubly linked in the pool list with head 100 and tail 200.  Block
200's payload ends at the break (240), so block 100 is not topmost. -/
def sC3 : AllocState :=
  { pool := { head := some 100, tail := some 200, allocated_memory := 16, free_memory := 0 },
    heap := fun a =>
      if a = 100 then some { size := 8, next := some 200, prev := none, is_free := false }
      else if a = 200 then some { size := 8, next := none, prev := some 100, is_free := false }
      else none,
    mem := fun _ => 0, pool_start := some 0, brk := 240, osLimit := 10 ^ 6 }

/-- The state `free` produces from `sC3` when the payload of the block at
100 is released: the block is marked free and its links now point at
itself, while node 200 is no longer reachable from the head. -/
def sC10 : AllocState :=
  { pool := { head := some 100, tail := some 200, allocated_memory := 16, free_memory := 8 },
    heap := fun a =>
      if a = 100 then some { size := 8, next := some 100, prev := some 100, is_free := true }
      else if a = 200 then some { size := 8, next := none, prev := some 100, is_free := false }
      else none,
    mem := fun _ => 0, pool_start := some 0, brk := 240, osLimit := 10 ^ 6 }

/-- A state with a single live block: header at 100, payload size 16, so
the payload (at 132) ends exactly at the break (148) and the block is
topmost. -/
def sW : AllocState :=
  { pool := { head := some 100, tail := some 100, allocated_memory := 16, free_memory := 0 },
    heap := fun a =>
      if a = 100 then some { size := 16, next := none, prev := none, is_free := false } else none,
    mem := fun _ => 0, pool_start := some 0, brk := 148, osLimit := 10000 }

/-- A state with a single parked free block: header at 100, payload size 8,
alone in the free list.  Memory bytes are 7 everywhere so that zero-filling
is observable. -/
def sF : AllocState :=
  { pool := { head := some 100, tail := some 100, allocated_memory := 8, free_memory := 8 },
    heap := fun a =>
      if a = 100 then some { size := 8, next := none, prev := none, is_free := true } else none,
    mem := fun _ => 7, pool_start := some 0, brk := 140, osLimit := 10 ^ 6 }

/-! Basic lemmas about the memory primitives. -/

theorem setHeader_pool (s : AllocState) (a : Nat) (h : Header) :
    (setHeader s a h).pool = s.pool := rfl

theorem getHeader_setHeader (s : AllocState) (a : Nat) (h : Header) (b : Nat) :
    getHeader (setHeader s a h) b = if b = a then h else getHeader s b := by
  unfold getHeader setHeader
  by_cases hb : b = a <;> simp [hb]

/-! Lemmas about `add_to_free_list`: after the insertion the inserted block
is the list head, is marked free, and keeps its payload size. -/

theorem add_to_free_list_head (s : AllocState) (b : Nat) :
    (add_to_free_list s b).pool.head = some b := by
  unfold add_to_free_list
  cases hh : s.pool.head <;> cases ht : s.pool.tail <;>
    simp [hh, ht, setHeader]

theorem add_to_free_list_getHeader (s : AllocState) (b : Nat) :
    (getHeader (add_to_free_list s b) b).is_free = true ∧
    (getHeader (add_to_free_list s b) b).size = (getHeader s b).size := by
  unfold add_to_free_list
  cases hh : s.pool.head with
  | none =>
    cases ht : s.pool.tail <;>
      simp [hh, ht, getHeader, setHeader]
  | some hd =>
    by_cases hb : b = hd <;>
      cases ht : s.pool.tail <;>
        simp [hh, ht, hb, getHeader, setHeader]

/-! Lemmas showing that a miss of the free-list scan leaves the state
untouched and hence that a NULL return of `malloc` leaves the state
untouched. -/

theorem gfbLoop_miss (s : AllocState) (size : Nat) :
    ∀ (fuel : Nat) (cur : Option Nat) (s1 : AllocState),
      gfbLoop s size cur fuel = some (none, s1) → s1 = s := by
  intro fuel
  induction fuel with
  | zero => intro cur s1 h; simp [gfbLoop] at h
  | succ n ih =>
    intro cur s1 h
    cases cur with
    | none =>
      simp [gfbLoop] at h
      exact h.symm
    | some c =>
      rw [gfbLoop] at h
      by_cases hc : (getHeader s c).is_free = true ∧ size ≤ (getHeader s c).size
      · rw [if_pos hc] at h
        simp at h
      · rw [if_neg hc] at h
        exact ih _ _ h

theorem malloc_null (fuel : Nat) (s : AllocState) (size : Nat) (s1 : AllocState)
    (h : malloc fuel s size = some (none, s1)) : s1 = s := by
  unfold malloc at h
  by_cases hsz : size = 0
  · rw [if_pos hsz] at h
    simp at h
    exact h.symm
  · rw [if_neg hsz] at h
    simp only [] at h
    cases hg : get_free_block fuel s (align size) with
    | none => rw [hg] at h; simp at h
    | some r =>
      obtain ⟨r1, st⟩ := r
      have hst : r1 = none → st = s := fun hr => by
        exact gfbLoop_miss s (align size) fuel s.pool.head st (by rw [hr] at hg; exact hg)
      cases r1 with
      | some hAddr => rw [hg] at h; simp at h
      | none =>
        rw [hg] at h
        have hse : st = s := hst rfl
        cases hps : st.pool_start with
        | none => simp [hps] at h; rw [← h]; exact hse
        | some ps =>
          simp only [hps] at h
          by_cases hcap : POOL_SIZE < st.brk - ps + ((align size + headerSize) % sizeTMod)
          · rw [if_pos hcap] at h
            simp at h
            rw [← h]; exact hse
          · rw [if_neg hcap] at h
            by_cases hos : st.osLimit < st.brk + ((align size + headerSize) % sizeTMod)
            · rw [if_pos hos] at h
              simp at h
              rw [← h]; exact hse
            · rw [if_neg hos] at h
              cases ht : st.pool.tail <;> simp [ht] at h

/-! Claim theorems. -/

/-- Claim C1 (code-bug evidence).  The claim says `allocate` returns null
on the grow path only when the OS refuses the growth.  In the code the grow
path never succeeds: without initialization `pool_start` is NULL and malloc
returns NULL, and after `initialize_memory_pool` the break already sits
`POOL_SIZE` above `pool_start`, so the cap check fails for every request
even though the OS (break limit 10^9 here) would grant the growth. -/
theorem c1_malloc_grow_always_null :
    s0.pool_start = none ∧
    (∀ fuel : Nat, malloc (fuel + 1) s0 8 = some (none, s0)) ∧
    sInit.pool_start = some 4096 ∧
    sInit.brk + (align 8 + headerSize) ≤ sInit.osLimit ∧
    (∀ fuel : Nat, malloc (fuel + 1) sInit 8 = some (none, sInit)) :=
  ⟨rfl, fun _ => rfl, rfl, by decide, fun _ => rfl⟩

/-- Claim C2 (code-bug evidence).  The claim says a block freshly returned
by `allocate` is not linked into any free list.  In `sC2` the pool-cap
check passes, the grow path runs, and the freshly returned block (header at
1000, `is_free = false`) is appended to the very list `get_free_block`
scans: the head node 100 now links to it and it back-links to 100. -/
theorem c2_fresh_block_linked :
    (malloc 9 sC2 8).map Prod.fst = some (some 1032) ∧
    (malloc 9 sC2 8).map
        (fun r => ((getHeader r.2 1000).is_free, (getHeader r.2 1000).prev,
          (getHeader r.2 100).next, r.2.pool.head, r.2.pool.tail))
      = some (false, some 100, some 1000, some 100, some 1000) :=
  ⟨rfl, rfl⟩

/-- Claim C3 (code-bug evidence).  Before the release, `sC3`'s list
`[100, 200]` is a well-formed doubly-linked chain.  Releasing the
non-topmost block 100 runs `add_to_free_list` on a node that is already in
the list, leaving the head node with `next` and `prev` pointing at itself,
so no enumeration of nodes forms a well-formed chain any more. -/
theorem c3_insert_corrupts_chain :
    isChain sC3 [100, 200] = true ∧
    free 5 sC3 (some 132) = some (add_to_free_list sC3 100) ∧
    (free 5 sC3 (some 132)).map
        (fun t => (t.pool.head, (getHeader t 100).prev, (getHeader t 100).next))
      = some (some 100, some 100, some 100) ∧
    ∀ l : List Nat, (free 5 sC3 (some 132)).map (fun t => isChain t l) = some false := by
  refine ⟨rfl, rfl, rfl, ?_⟩
  intro l
  have hfree : free 5 sC3 (some 132) = some (add_to_free_list sC3 100) := rfl
  rw [hfree]
  simp only [Option.map_some']
  have hhead : (add_to_free_list sC3 100).pool.head = some 100 := rfl
  have hprev : (getHeader (add_to_free_list sC3 100) 100).prev = some 100 := rfl
  unfold isChain
  rw [hhead]
  cases l with
  | nil => rfl
  | cons a rest =>
    by_cases ha : a = 100
    · subst ha
      simp [chainOkB, hprev]
    · simp [chainOkB, Ne.symm ha]

/-- Claim C10 (code-bug evidence).  The corrupted state `sC10` is exactly
what `free` produces from `sC3`; in it the head node is free with
`next` pointing at itself and size 8, so the fit-search loop of
`get_free_block` for a request of 16 bytes never terminates, whatever
fuel it is given. -/
theorem c10_scan_divergence :
    (free 5 sC3 (some 132)).map
        (fun t => (getHeader t 100, getHeader t 200, t.pool.head, t.pool.tail))
      = some (getHeader sC10 100, getHeader sC10 200, sC10.pool.head, sC10.pool.tail) ∧
    (getHeader sC10 100).is_free = true ∧
    (getHeader sC10 100).size < 16 ∧
    (getHeader sC10 100).next = some 100 ∧
    ∀ fuel : Nat, get_free_block fuel sC10 16 = none := by
  refine ⟨rfl, rfl, by decide, rfl, ?_⟩
  have h : ∀ f, gfbLoop sC10 16 (some 100) f = none := by
    intro f
    induction f with
    | zero => rfl
    | succ n ih =>
      exact (rfl : gfbLoop sC10 16 (some 100) (n + 1) = gfbLoop sC10 16 (some 100) n).trans ih
  intro fuel
  exact h fuel

/-- Claim C6.  If `reallocate` of a non-null payload to a strictly larger
size returns the null result, the whole allocator state — the old block's
header, its bytes, the free list and the break — is exactly as before. -/
theorem c6_realloc_failure_preserves (fuel : Nat) (s : AllocState) (p sz : Nat)
    (s1 : AllocState)
    (hgrow : (getHeader s (p - headerSize)).size < sz)
    (hres : realloc fuel s (some p) sz = some (none, s1)) : s1 = s := by
  simp only [realloc] at hres
  rw [if_neg (by omega : ¬sz = 0)] at hres
  rw [if_neg (by omega : ¬sz ≤ (getHeader s (p - headerSize)).size)] at hres
  cases hm : malloc fuel s sz with
  | none => rw [hm] at hres; simp at hres
  | some r =>
    obtain ⟨r1, st⟩ := r
    cases r1 with
    | none =>
      rw [hm] at hres
      simp at hres
      rw [← hres]
      exact malloc_null fuel s sz st hm
    | some ret =>
      rw [hm] at hres
      simp only [] at hres
      cases hf : free fuel (memcpy st ret p (getHeader st (p - headerSize)).size) (some p) with
      | none => rw [hf] at hres; simp at hres
      | some s3 => rw [hf] at hres; simp at hres

/-- Witness for C6 at a concrete input: in the fresh state `s0` (where
`malloc` fails), reallocating payload 100 to 7 bytes returns null and
preserves the state. -/
theorem c6_realloc_failure_preserves_witness :
    (getHeader s0 (100 - headerSize)).size < 7 ∧ s0 = s0 :=
  ⟨by decide, c6_realloc_failure_preserves 5 s0 100 7 s0 (by decide) rfl⟩

/-- Claim C7.  `realloc`'s dispatch: a null payload delegates to `malloc`;
size 0 delegates to `free` and returns null; and when the block's recorded
size already covers the request, the same payload is returned with the
state untouched. -/
theorem c7_realloc_dispatch :
    (∀ (fuel : Nat) (s : AllocState) (sz : Nat), realloc fuel s none sz = malloc fuel s sz) ∧
    (∀ (fuel : Nat) (s : AllocState) (p : Nat),
      realloc fuel s (some p) 0 = (free fuel s (some p)).map (fun s1 => (none, s1))) ∧
    (∀ (fuel : Nat) (s : AllocState) (p sz : Nat), sz ≠ 0 →
      sz ≤ (getHeader s (p - headerSize)).size →
      realloc fuel s (some p) sz = some (some p, s)) := by
  refine ⟨fun _ _ _ => rfl, fun _ _ _ => rfl, ?_⟩
  intro fuel s p sz hsz hle
  simp only [realloc]
  rw [if_neg hsz, if_pos hle]

/-- Witness for C7 at concrete inputs: the three dispatch branches on the
one-block state `sW`. -/
theorem c7_realloc_dispatch_witness :
    realloc 5 sW none 8 = malloc 5 sW 8 ∧
    realloc 5 sW (some 132) 0 = (free 5 sW (some 132)).map (fun s1 => (none, s1)) ∧
    realloc 5 sW (some 132) 10 = some (some 132, sW) :=
  ⟨c7_realloc_dispatch.1 5 sW 8, c7_realloc_dispatch.2.1 5 sW 132,
    c7_realloc_dispatch.2.2 5 sW 132 10 (by decide) (by decide)⟩

/-- Claim C4.  `free(NULL)` is a no-op; for a non-null payload whose end
equals the current break, `free` shrinks the break by `size + header_size`
and does not insert the block into the free list (its free flag and the
free-byte counter are untouched); otherwise `free` is exactly
`add_to_free_list` on the header, which marks it free and pushes it at the
list head. -/
theorem c4_free_spec :
    (∀ (fuel : Nat) (s : AllocState), free fuel s none = some s) ∧
    (∀ (fuel : Nat) (s : AllocState) (p : Nat),
      p + (getHeader s (p - headerSize)).size = s.brk →
      (free fuel s (some p)).isSome = true →
      (free fuel s (some p)).map AllocState.brk
          = some (s.brk - ((getHeader s (p - headerSize)).size + headerSize)) ∧
      (free fuel s (some p)).map (fun t => (getHeader t (p - headerSize)).is_free)
          = some (getHeader s (p - headerSize)).is_free ∧
      (free fuel s (some p)).map (fun t => t.pool.free_memory) = some s.pool.free_memory) ∧
    (∀ (fuel : Nat) (s : AllocState) (p : Nat),
      p + (getHeader s (p - headerSize)).size ≠ s.brk →
      free fuel s (some p) = some (add_to_free_list s (p - headerSize)) ∧
      (free fuel s (some p)).map
          (fun t => ((getHeader t (p - headerSize)).is_free, t.pool.head))
        = some (true, some (p - headerSize))) := by
  refine ⟨fun _ _ => rfl, ?_, ?_⟩
  · intro fuel s p htop hsome
    cases hf : free fuel s (some p) with
    | none => rw [hf] at hsome; simp at hsome
    | some t =>
      simp only [Option.map_some']
      simp only [free] at hf
      rw [if_pos htop] at hf
      split at hf
      · have ht := Option.some.inj hf
        subst ht
        refine ⟨?_, rfl, rfl⟩
        show some (s.brk - (headerSize + (getHeader s (p - headerSize)).size)) = _
        rw [Nat.add_comm]
      · split at hf
        · simp at hf
        · split at hf
          · simp at hf
          · rename_i hd hh tmp hw
            have ht := Option.some.inj hf
            subst ht
            have hsz : (getHeader (setHeader s tmp { getHeader s tmp with next := none })
                (p - headerSize)).size = (getHeader s (p - headerSize)).size := by
              rw [getHeader_setHeader]
              by_cases htmp : p - headerSize = tmp
              · rw [if_pos htmp, htmp]
              · rw [if_neg htmp]
            have hfr : (getHeader (setHeader s tmp { getHeader s tmp with next := none })
                (p - headerSize)).is_free = (getHeader s (p - headerSize)).is_free := by
              rw [getHeader_setHeader]
              by_cases htmp : p - headerSize = tmp
              · rw [if_pos htmp, htmp]
              · rw [if_neg htmp]
            refine ⟨?_, ?_, rfl⟩
            · show some (s.brk - (headerSize + (getHeader
                (setHeader s tmp { getHeader s tmp with next := none })
                (p - headerSize)).size)) = _
              rw [hsz, Nat.add_comm]
            · show some ((getHeader (setHeader s tmp { getHeader s tmp with next := none })
                (p - headerSize)).is_free) = _
              rw [hfr]
  · intro fuel s p hnot
    have hfree : free fuel s (some p) = some (add_to_free_list s (p - headerSize)) := by
      simp only [free]
      rw [if_neg hnot]
    refine ⟨hfree, ?_⟩
    rw [hfree]
    simp only [Option.map_some']
    rw [(add_to_free_list_getHeader s (p - headerSize)).1,
      add_to_free_list_head s (p - headerSize)]

/-- Witness for C4 at concrete inputs: `free(NULL)` on `sW`; the topmost
release in `sW` (payload 132 ends at the break 148, so the break shrinks to
100 with nothing inserted); and the non-topmost release in `sC3`. -/
theorem c4_free_spec_witness :
    free 5 sW none = some sW ∧
    ((free 5 sW (some 132)).map AllocState.brk = some 100 ∧
      (free 5 sW (some 132)).map
          (fun t => (getHeader t (132 - headerSize)).is_free) = some false ∧
      (free 5 sW (some 132)).map (fun t => t.pool.free_memory) = some 0) ∧
    (free 5 sC3 (some 132) = some (add_to_free_list sC3 100) ∧
      (free 5 sC3 (some 132)).map
          (fun t => ((getHeader t (132 - headerSize)).is_free, t.pool.head))
        = some (true, some (132 - headerSize))) :=
  ⟨c4_free_spec.1 5 sW,
    c4_free_spec.2.1 5 sW 132 (by decide) (by decide),
    c4_free_spec.2.2 5 sC3 132 (by decide)⟩

/-- Claim C5.  Releasing a non-topmost payload pushes its header at the
head of the free list, and an immediately following `malloc` whose request
rounds to exactly that header's size finds the head-most fit first and
returns the same payload pointer. -/
theorem c5_lifo_reuse (fuel fuel2 : Nat) (s : AllocState) (p q : Nat)
    (hp : headerSize ≤ p)
    (hnt : p + (getHeader s (p - headerSize)).size ≠ s.brk)
    (hq : q ≠ 0)
    (hsz : align q = (getHeader s (p - headerSize)).size) :
    (free fuel s (some p)).bind (fun s1 => (malloc (fuel2 + 1) s1 q).map Prod.fst)
      = some (some p) := by
  have hfree : free fuel s (some p) = some (add_to_free_list s (p - headerSize)) := by
    simp only [free]
    rw [if_neg hnt]
  rw [hfree]
  simp only [Option.some_bind]
  have hA1 := add_to_free_list_getHeader s (p - headerSize)
  have hgfb : get_free_block (fuel2 + 1) (add_to_free_list s (p - headerSize)) (align q)
      = some (some (p - headerSize),
          remove_from_free_list (add_to_free_list s (p - headerSize)) (p - headerSize)) := by
    unfold get_free_block
    rw [add_to_free_list_head s (p - headerSize)]
    rw [gfbLoop]
    rw [if_pos ⟨hA1.1, le_of_eq (hsz.trans hA1.2.symm)⟩]
  simp only [malloc]
  rw [if_neg hq, hgfb]
  simp only [Option.map_some']
  rw [Nat.sub_add_cancel hp]

/-- Witness for C5 at a concrete input: in `sC3`, releasing the non-topmost
payload 132 (block size 8) and allocating 8 bytes returns payload 132
again. -/
theorem c5_lifo_reuse_witness :
    (free 5 sC3 (some 132)).bind (fun s1 => (malloc 3 s1 8).map Prod.fst)
      = some (some 132) :=
  c5_lifo_reuse 5 2 sC3 132 8 (by decide) (by decide) (by decide) (by decide)

/-- Claim C8.  `calloc` returns null when either factor is zero; it returns
null whenever `count * elem_size` overflows the 64-bit word (the division
check catches every overflow); otherwise it behaves as `malloc` of the
product followed, on success, by zero-filling the product's bytes, and
zero-filling makes every byte of the payload range zero. -/
theorem c8_calloc_spec :
    (∀ (fuel : Nat) (s : AllocState) (n m : Nat), n = 0 ∨ m = 0 →
      calloc fuel s n m = some (none, s)) ∧
    (∀ (fuel : Nat) (s : AllocState) (n m : Nat), n ≠ 0 → m ≠ 0 →
      sizeTMod ≤ n * m → calloc fuel s n m = some (none, s)) ∧
    (∀ (fuel : Nat) (s : AllocState) (n m : Nat), n ≠ 0 → m ≠ 0 → n * m < sizeTMod →
      calloc fuel s n m
        = (malloc fuel s (n * m)).map (fun r =>
            match r with
            | (none, s1) => (none, s1)
            | (some b, s1) => (some b, memset s1 b (n * m) 0))) ∧
    (∀ (s : AllocState) (b t i : Nat), i < t → (memset s b t 0).mem (b + i) = 0) := by
  refine ⟨?_, ?_, ?_, ?_⟩
  · intro fuel s n m h
    simp only [calloc]
    rw [if_pos h]
  · intro fuel s n m hn hm hov
    have hne : m ≠ (n * m) % sizeTMod / n := by
      intro heq
      have hdm := Nat.div_mul_le_self ((n * m) % sizeTMod) n
      rw [← heq] at hdm
      have hmod := Nat.mod_lt (n * m) (show 0 < sizeTMod by decide)
      have hcomm : n * m = m * n := Nat.mul_comm n m
      omega
    simp only [calloc]
    rw [if_neg (show ¬(n = 0 ∨ m = 0) by simp [hn, hm])]
    rw [if_pos hne]
  · intro fuel s n m hn hm hlt
    have hmod : (n * m) % sizeTMod = n * m := Nat.mod_eq_of_lt hlt
    simp only [calloc]
    rw [if_neg (show ¬(n = 0 ∨ m = 0) by simp [hn, hm])]
    rw [hmod]
    rw [if_neg (show ¬m ≠ n * m / n from
      fun hc => hc (Nat.mul_div_cancel_left m (Nat.pos_of_ne_zero hn)).symm)]
    cases hM : malloc fuel s (n * m) with
    | none => simp
    | some r =>
      obtain ⟨r1, s1⟩ := r
      cases r1 <;> simp
  · intro s b t i hit
    show (if b ≤ b + i ∧ b + i < b + t then 0 else s.mem (b + i)) = 0
    rw [if_pos ⟨Nat.le_add_right b i, Nat.add_lt_add_left hit b⟩]

/-- Witness for C8 at concrete inputs: a zero factor, the overflowing
product `2^63 * 2`, the in-range product `2 * 4` on the state `sF` with a
parked 8-byte block, and a concrete zero-filled byte. -/
theorem c8_calloc_spec_witness :
    calloc 5 sF 0 5 = some (none, sF) ∧
    calloc 5 sF (2 ^ 63) 2 = some (none, sF) ∧
    calloc 9 sF 2 4
      = (malloc 9 sF (2 * 4)).map (fun r =>
          match r with
          | (none, s1) => (none, s1)
          | (some b, s1) => (some b, memset s1 b (2 * 4) 0)) ∧
    (memset sF 132 8 0).mem (132 + 3) = 0 :=
  ⟨c8_calloc_spec.1 5 sF 0 5 (Or.inl rfl),
    c8_calloc_spec.2.1 5 sF (2 ^ 63) 2 (by decide) (by decide) (by decide),
    c8_calloc_spec.2.2.1 9 sF 2 4 (by decide) (by decide) (by decide),
    c8_calloc_spec.2.2.2 sF 132 8 3 (by decide)⟩

end MallocModel


